import Mathlib

/-!
Shallow embedding of the fluke-laniakea-plugin data plane (the influx-enabled
variant of `main.go`, together with `cfg/config.go`).

Go maps `map[int]T` are embedded as association lists `List (Nat × T)`;
Go's zero-value semantics for a missing key is made explicit in `lookupTag`.
Device and sink I/O are oracles passed in as function or flag parameters.
-/

namespace Fluke

/-- `cfg.CfgTag` from `cfg/config.go`: one configured channel descriptor,
with a display name (`Tag`) and a semantic type (`Type`). -/
structure CfgTag where
  tag : String
  type : String
deriving Repr, DecidableEq

/-- `Tag` from `main.go`: a registry entry `{name, tag, tagType}` where
`tag` is the raw OPC identifier. -/
structure Tag where
  name : String
  tag : String
  tagType : String
deriving Repr, DecidableEq

/-- The error values of `main.go` (`bg.Error` constants), plus constructors
carrying the message of an error propagated from a collaborator. -/
inductive Err where
  | alreadyRecording
  | alreadyStoppedRecording
  | blankInfluxOrgOrBucket
  | invalidOrg
  | invalidBucket
  | deviceErr (msg : String)
  | sinkErr (msg : String)
deriving Repr, DecidableEq

/-- `createTagMap` from `main.go`:

```go
func createTagMap(tags []string, cfgTagMap map[int]cfg.CfgTag) map[int]Tag {
    tagMap := make(map[int]Tag)
    for i, cfgTag := range cfgTagMap {
        tagMap[i] = Tag{name: cfgTag.Tag, tag: tags[i], tagType: cfgTag.Type}
    }
    return tagMap
}
```

`tags[i]` is an unchecked slice index: when a configured index `i` is out of
range of `tags`, the Go code panics (index out of range). The panic is
embedded as `none`; a normal return is `some` of the association list built
in configuration order. `ctmStep` is the body of the `for` loop. -/
def ctmStep (tags : List String) (acc : Option (List (Nat × Tag)))
    (p : Nat × CfgTag) : Option (List (Nat × Tag)) :=
  match acc with
  | none => none
  | some m =>
    match tags.get? p.1 with
    | none => none
    | some t => some (m ++ [(p.1, ⟨p.2.tag, t, p.2.type⟩)])

/-- The loop of `createTagMap` over the configuration entries. -/
def createTagMap (tags : List String) (cfgTagMap : List (Nat × CfgTag)) :
    Option (List (Nat × Tag)) :=
  cfgTagMap.foldl (ctmStep tags) (some [])

/-- Closed form of `createTagMap`: it panics (returns `none`) exactly when
some configured index is out of range of the raw tag list, and otherwise
builds one entry per configured index, whose raw identifier is the tag list
entry at that index. -/
theorem createTagMap_eq (tags : List String) (l : List (Nat × CfgTag)) :
    createTagMap tags l =
      if ∀ p ∈ l, p.1 < tags.length then
        some (l.map fun p => (p.1, ⟨p.2.tag, tags.getD p.1 "", p.2.type⟩))
      else none := by
  have foldNone : ∀ (l' : List (Nat × CfgTag)),
      l'.foldl (ctmStep tags) none = none := by
    intro l'; induction l' with
    | nil => rfl
    | cons h t iht => simpa [ctmStep] using iht
  have key : ∀ (l : List (Nat × CfgTag)) (m : List (Nat × Tag)),
      l.foldl (ctmStep tags) (some m) =
      if ∀ p ∈ l, p.1 < tags.length then
        some (m ++ l.map fun p => (p.1, ⟨p.2.tag, tags.getD p.1 "", p.2.type⟩))
      else none := by
    intro l
    induction l with
    | nil => intro m; simp
    | cons hd tl ih =>
      intro m
      by_cases hhd : hd.1 < tags.length
      · have hget : tags.get? hd.1 = some (tags.getD hd.1 "") := by
          simp [List.get?_eq_getElem?, List.getElem?_eq_getElem hhd,
            List.getD_eq_getElem?_getD, List.getElem?_eq_getElem hhd]
        simp only [List.foldl_cons, ctmStep, hget]
        rw [ih]
        by_cases htl : ∀ p ∈ tl, p.1 < tags.length
        · have hcons : ∀ p ∈ hd :: tl, p.1 < tags.length := by
            intro p hp
            rcases List.mem_cons.mp hp with rfl | hp'
            · exact hhd
            · exact htl p hp'
          rw [if_pos htl, if_pos hcons]
          simp
        · have hcons : ¬ ∀ p ∈ hd :: tl, p.1 < tags.length := fun h =>
            htl fun p hp => h p (List.mem_cons_of_mem _ hp)
          rw [if_neg htl, if_neg hcons]
      · have hget : tags.get? hd.1 = none := by
          simp [List.get?_eq_getElem?, List.getElem?_eq_none (show tags.length ≤ hd.1 by omega)]
        simp only [List.foldl_cons, ctmStep, hget]
        rw [foldNone]
        have hnot : ¬ ∀ p ∈ hd :: tl, p.1 < tags.length := by
          intro h; exact hhd (h hd (by simp))
        rw [if_neg hnot]
  have := key l []
  simpa [createTagMap] using this

/-- `DAQConnection` from `main.go`, restricted to the data the mapped
operations consult (the opaque `opc.Connection` is passed separately as a
read/write oracle). -/
structure DAQConnection where
  tags : List String
  tagMap : List (Nat × Tag)

/-- Go map indexing `d.TagMap[i]`: the entry when the key is present, and the
zero value `Tag{"", "", ""}` when it is absent. -/
def lookupTag (m : List (Nat × Tag)) (i : Nat) : Tag :=
  match m.find? (fun p => p.1 == i) with
  | some p => p.2
  | none => ⟨"", "", ""⟩

/-- One boolean write to the OPC server; `target` is the raw identifier
handed to `Connection.Write`. -/
structure WriteEvent where
  target : String
  value : Bool
deriving Repr, DecidableEq

/-- `StartScanning` from `main.go`: writes `true` to `d.TagMap[0].tag` and
returns the device write's error verbatim. The pair records the result and
the write issued. -/
def startScanning (d : DAQConnection) (write : String → Bool → Option String) :
    Option String × WriteEvent :=
  ((write (lookupTag d.tagMap 0).tag true), ⟨(lookupTag d.tagMap 0).tag, true⟩)

/-- `StopScanning` from `main.go`: writes `false` to `d.TagMap[0].tag` and
returns the device write's error verbatim. -/
def stopScanning (d : DAQConnection) (write : String → Bool → Option String) :
    Option String × WriteEvent :=
  ((write (lookupTag d.tagMap 0).tag false), ⟨(lookupTag d.tagMap 0).tag, false⟩)

/-- A dynamically-typed OPC item value as the sampling loop's type switch
sees it: a 64-bit float, a 32-bit float, or anything else. Float values are
carried as exact rationals (every claim below evaluates them only at values
exactly representable in both widths, where Go's `float64(v)` widening is
value-preserving). -/
inductive OpcValue where
  | f64 (v : ℚ)
  | f32 (v : ℚ)
  | other (s : String)
deriving Repr, DecidableEq

/-- `Reading` from `main.go`. -/
structure Reading where
  item : OpcValue
  name : String
  type : String
deriving Repr, DecidableEq

/-- `ReadItems` from `main.go`: collect the map's keys, sort them ascending
(Go's `sort.Ints`, embedded as insertion sort), and read every channel
except index 0 in that order. -/
def readItems (d : DAQConnection) (read : String → OpcValue) : List Reading :=
  (((d.tagMap.map Prod.fst).insertionSort (· ≤ ·)).filter (· ≠ 0)).map fun i =>
    ⟨read (lookupTag d.tagMap i).tag, (lookupTag d.tagMap i).name,
      (lookupTag d.tagMap i).tagType⟩

/-- `GetTagMapNames` from `main.go`: display names of all channels except
index 0, in ascending index order. -/
def getTagMapNames (d : DAQConnection) : List String :=
  (((d.tagMap.map Prod.fst).insertionSort (· ≤ ·)).filter (· ≠ 0)).map fun i =>
    (lookupTag d.tagMap i).name

/-- C6: out of range configured index. The spec requires `createTagMap` to
fail with a configuration error surfaced to the caller; the code instead
indexes `tags[i]` unchecked, so with one raw tag and a descriptor at index 5
it panics (embedded: returns `none`, not an error value), while an in-range
map yields exactly one descriptor per configured index with the raw
identifier drawn from the tag list at that index. -/
theorem createTagMap_oob_panics :
    createTagMap ["t0"] [(5, ⟨"ch5", "temperature"⟩)] = none ∧
    createTagMap ["t0", "t1"] [(1, ⟨"ch1", "temperature"⟩)] =
      some [(1, ⟨"ch1", "t1", "temperature"⟩)] := by
  constructor <;> rfl

/-- C9: when the configured tag map has no entry at index 0,
`StartScanning`/`StopScanning` perform no validation of the control channel:
the Go zero-value lookup makes them write `true` (resp. `false`) to the
empty-string raw identifier, and each returns exactly the device write's
result. -/
theorem scanning_no_entry_zero (d : DAQConnection)
    (write : String → Bool → Option String)
    (h : d.tagMap.find? (fun p => p.1 == 0) = none) :
    startScanning d write = (write "" true, ⟨"", true⟩) ∧
    stopScanning d write = (write "" false, ⟨"", false⟩) := by
  have hz : lookupTag d.tagMap 0 = ⟨"", "", ""⟩ := by
    simp [lookupTag, h]
  constructor <;> simp [startScanning, stopScanning, hz]

/-- Witness for `scanning_no_entry_zero` at a concrete connection whose map
has entries only at indices 1 and 2, and an always-succeeding device. -/
theorem scanning_no_entry_zero_witness :
    startScanning ⟨["a", "b", "c"], [(1, ⟨"n1", "b", "x"⟩), (2, ⟨"n2", "c", "y"⟩)]⟩
        (fun _ _ => none) = (none, ⟨"", true⟩) ∧
    stopScanning ⟨["a", "b", "c"], [(1, ⟨"n1", "b", "x"⟩), (2, ⟨"n2", "c", "y"⟩)]⟩
        (fun _ _ => none) = (none, ⟨"", false⟩) :=
  scanning_no_entry_zero _ _ (by rfl)

/-- `Payload` from `main.go`: one `{name, value}` frame entry. -/
structure Payload where
  name : String
  value : ℚ
deriving Repr, DecidableEq

/-- One influx time-series point as built in the loop:
`influx.NewPoint(reading.Type, map{"id": reading.Name}, map{reading.Type: v}, current_time)`
(the shared per-tick timestamp is omitted; it carries no claim content). -/
structure Point where
  measurement : String
  id : String
  fieldName : String
  value : ℚ
deriving Repr, DecidableEq

/-- `Frame` from `main.go`: the JSON-serializable `{"data": [...]}` struct. -/
structure Frame where
  data : List Payload
deriving Repr, DecidableEq

/-- The numeric value the loop's type switch extracts from an item value:
`some` for `float64` (unchanged) and `float32` (widened), `none` otherwise. -/
def numValue : OpcValue → Option ℚ
  | .f64 v => some v
  | .f32 v => some v
  | .other _ => none

/-- The per-reading body of the ticker branch of the background loop in
`StartRecord`: the type switch appends a `Payload` to `data` for `float64`
and `float32` values (anything else falls through), and, when influx is
configured and the reading's type is not `"ignore"`, writes one point to the
async write API. Returns the assembled `data` slice and the points written
this tick, in order. -/
def processReadings (influx : Bool) : List Reading → List Payload × List Point
  | [] => ([], [])
  | r :: rest =>
    let acc := processReadings influx rest
    match r.item with
    | .f64 v =>
      (⟨r.name, v⟩ :: acc.1,
        if influx then
          (if r.type ≠ "ignore" then ⟨r.type, r.name, r.type, v⟩ :: acc.2 else acc.2)
        else acc.2)
    | .f32 v =>
      (⟨r.name, v⟩ :: acc.1,
        if influx then
          (if r.type ≠ "ignore" then ⟨r.type, r.name, r.type, v⟩ :: acc.2 else acc.2)
        else acc.2)
    | .other _ => acc

/-- Per-reading frame contribution (characterization used in proofs). -/
def payloadOf (r : Reading) : Option Payload :=
  (numValue r.item).map fun v => ⟨r.name, v⟩

/-- Per-reading sink contribution (characterization used in proofs). -/
def pointOf (r : Reading) : Option Point :=
  (numValue r.item).bind fun v =>
    if r.type = "ignore" then none else some ⟨r.type, r.name, r.type, v⟩

/-- The loop body produces exactly the numeric readings as frame entries and,
when influx is configured, exactly the non-"ignore" numeric readings as sink
points, both in reading order. -/
theorem processReadings_eq (influx : Bool) (rs : List Reading) :
    processReadings influx rs =
      (rs.filterMap payloadOf, if influx then rs.filterMap pointOf else []) := by
  induction rs with
  | nil => cases influx <;> simp [processReadings]
  | cons r rest ih =>
    cases hitem : r.item with
    | f64 v =>
      by_cases hig : r.type = "ignore" <;> cases influx <;>
        simp [processReadings, hitem, ih, payloadOf, pointOf, numValue, hig]
    | f32 v =>
      by_cases hig : r.type = "ignore" <;> cases influx <;>
        simp [processReadings, hitem, ih, payloadOf, pointOf, numValue, hig]
    | other s =>
      cases influx <;>
        simp [processReadings, hitem, ih, payloadOf, pointOf, numValue]

/-- A sink point always carries the originating reading's name as its id. -/
theorem pointOf_id {r : Reading} {pt : Point} (h : pointOf r = some pt) :
    pt.id = r.name := by
  unfold pointOf at h
  rcases hnv : numValue r.item with _ | v
  · rw [hnv] at h; cases h
  · rw [hnv, Option.some_bind] at h
    by_cases hig : r.type = "ignore"
    · rw [if_pos hig] at h; cases h
    · rw [if_neg hig] at h
      injection h with h'
      subst h'
      rfl

/-- Among readings with pairwise-distinct names, the sink points whose id is
a given reading's name are exactly that reading's own contribution. -/
theorem filter_pointOf_name (rs : List Reading) (r : Reading)
    (hnodup : (rs.map Reading.name).Nodup) (hmem : r ∈ rs) :
    (rs.filterMap pointOf).filter (fun pt => pt.id == r.name) =
      (pointOf r).toList := by
  induction rs with
  | nil => cases hmem
  | cons hd tl ih =>
    have hnodup' : (hd.name :: tl.map Reading.name).Nodup := by
      simpa using hnodup
    have hnotin : hd.name ∉ tl.map Reading.name := (List.nodup_cons.mp hnodup').1
    have hnd : (tl.map Reading.name).Nodup := (List.nodup_cons.mp hnodup').2
    have tl_ne : ∀ pt ∈ tl.filterMap pointOf, pt.id ≠ hd.name := by
      intro pt hpt
      rcases List.mem_filterMap.mp hpt with ⟨r', hr', hpt'⟩
      rw [pointOf_id hpt']
      intro hcontra
      exact hnotin (hcontra ▸ List.mem_map_of_mem Reading.name hr')
    rcases List.mem_cons.mp hmem with rfl | hmem'
    · have tl_filter : (tl.filterMap pointOf).filter
          (fun pt => pt.id == r.name) = [] := by
        rw [List.filter_eq_nil_iff]
        intro pt hpt
        simpa using tl_ne pt hpt
      rcases hp : pointOf r with _ | pt
      · simp [List.filterMap_cons, hp, tl_filter]
      · simp [List.filterMap_cons, hp, List.filter_cons, pointOf_id hp, tl_filter]
    · have hne : hd.name ≠ r.name := by
        intro hcontra
        exact hnotin (hcontra ▸ List.mem_map_of_mem Reading.name hmem')
      rcases hp : pointOf hd with _ | pt
      · rw [List.filterMap_cons, hp]
        exact ih hnd hmem'
      · rw [List.filterMap_cons, hp, List.filter_cons]
        have : (pt.id == r.name) = false := by
          simp [pointOf_id hp, hne]
        rw [this]
        simp only [Bool.false_eq_true, if_false]
        exact ih hnd hmem'

/-- C8: with a sink configured, a numeric reading with semantic type
`"ignore"` appears in the frame but contributes no sink point (no point
carries its name), while a numeric reading of any other type appears in the
frame and is written to the sink as exactly one point for the tick. Names
are assumed pairwise distinct so that points can be attributed by id. -/
theorem sink_ignore_vs_frame (rs : List Reading) (r : Reading) (v : ℚ)
    (hnodup : (rs.map Reading.name).Nodup)
    (hmem : r ∈ rs) (hv : numValue r.item = some v) :
    Payload.mk r.name v ∈ (processReadings true rs).1 ∧
    (r.type = "ignore" →
      (processReadings true rs).2.filter (fun pt => pt.id == r.name) = []) ∧
    (r.type ≠ "ignore" →
      (processReadings true rs).2.filter (fun pt => pt.id == r.name) =
        [⟨r.type, r.name, r.type, v⟩]) := by
  have hchar := processReadings_eq true rs
  refine ⟨?_, ?_, ?_⟩
  · simp only [hchar]
    exact List.mem_filterMap.mpr ⟨r, hmem, by simp [payloadOf, hv]⟩
  · intro hig
    simp only [hchar, if_true]
    rw [filter_pointOf_name rs r hnodup hmem]
    simp [pointOf, hv, hig]
  · intro hig
    simp only [hchar, if_true]
    rw [filter_pointOf_name rs r hnodup hmem]
    simp [pointOf, hv, hig]

/-- Witness for `sink_ignore_vs_frame`: readings A (float32, type
"temperature"), B (float64, type "ignore"). -/
theorem sink_ignore_vs_frame_witness :
    Payload.mk "A" (3/2) ∈
      (processReadings true
        [⟨.f32 (3/2), "A", "temperature"⟩, ⟨.f64 (9/4), "B", "ignore"⟩]).1 ∧
    ((("temperature" : String)) ≠ "ignore" →
      (processReadings true
        [⟨.f32 (3/2), "A", "temperature"⟩, ⟨.f64 (9/4), "B", "ignore"⟩]).2.filter
          (fun pt => pt.id == "A") =
        [⟨"temperature", "A", "temperature", 3/2⟩]) := by
  have h := sink_ignore_vs_frame
    [⟨.f32 (3/2), "A", "temperature"⟩, ⟨.f64 (9/4), "B", "ignore"⟩]
    ⟨.f32 (3/2), "A", "temperature"⟩ (3/2)
    (by decide) (by simp) (by rfl)
  exact ⟨h.1, fun _ => h.2.2 (by decide)⟩

/-- A cons-cell whose key differs from the query is skipped by the Go map
lookup. -/
theorem lookupTag_cons_ne (hd : Nat × Tag) (rest : List (Nat × Tag)) (j : Nat)
    (hne : hd.1 ≠ j) : lookupTag (hd :: rest) j = lookupTag rest j := by
  simp [lookupTag, List.find?_cons, hne]

/-- Iterating the sorted non-zero keys of a strictly-ascending association
list and looking each one up visits exactly the non-zero entries in list
order. -/
theorem keys_filter_map_lookup {α : Type} (F : Tag → α) :
    ∀ (m : List (Nat × Tag)), List.Pairwise (fun p q => p.1 < q.1) m →
    ((m.map Prod.fst).filter (· ≠ 0)).map (fun i => F (lookupTag m i)) =
      (m.filter (fun p => p.1 ≠ 0)).map (fun p => F p.2) := by
  intro m
  induction m with
  | nil => simp
  | cons hd tl ih =>
    intro hp
    have hlt : ∀ q ∈ tl, hd.1 < q.1 := (List.pairwise_cons.mp hp).1
    have htl := (List.pairwise_cons.mp hp).2
    have hlook_hd : lookupTag (hd :: tl) hd.1 = hd.2 := by
      simp [lookupTag, List.find?_cons]
    have hcongr :
        ((tl.map Prod.fst).filter (· ≠ 0)).map
            (fun i => F (lookupTag (hd :: tl) i)) =
          ((tl.map Prod.fst).filter (· ≠ 0)).map
            (fun i => F (lookupTag tl i)) := by
      refine List.map_congr_left ?_
      intro j hj
      have hjmem : j ∈ tl.map Prod.fst := (List.mem_filter.mp hj).1
      rcases List.mem_map.mp hjmem with ⟨q, hq, rfl⟩
      rw [lookupTag_cons_ne hd tl q.1 (Nat.ne_of_lt (hlt q hq))]
    by_cases h0 : hd.1 = 0
    · have hb : (decide (hd.1 ≠ 0)) = false := by simp [h0]
      simp only [List.map_cons, List.filter_cons, hb, Bool.false_eq_true, if_false]
      rw [hcongr, ih htl]
    · have hb : (decide (hd.1 ≠ 0)) = true := by simp [h0]
      simp only [List.map_cons, List.filter_cons, hb, if_true]
      rw [hlook_hd, hcongr, ih htl]

/-- `ReadItems` on a strictly index-ascending tag map yields exactly one
reading per non-zero entry, in map (that is, ascending-index) order. -/
theorem readItems_sorted (d : DAQConnection) (read : String → OpcValue)
    (hp : List.Pairwise (fun p q => p.1 < q.1) d.tagMap) :
    readItems d read =
      (d.tagMap.filter (fun p => p.1 ≠ 0)).map
        (fun p => ⟨read p.2.tag, p.2.name, p.2.tagType⟩) := by
  have hsorted : List.Sorted (· ≤ ·) (d.tagMap.map Prod.fst) := by
    rw [List.Sorted, List.pairwise_map]
    exact hp.imp le_of_lt
  unfold readItems
  rw [List.Sorted.insertionSort_eq hsorted]
  exact keys_filter_map_lookup
    (fun tg => Reading.mk (read tg.tag) tg.name tg.tagType) d.tagMap hp

/-- Decimal rendering of a rational with terminating decimal expansion, as
`encoding/json` renders the corresponding `float64` (shortest decimal form;
all claim inputs are low-precision dyadic values where the two coincide). -/
def renderQ (q : ℚ) : String :=
  match (List.range 40).find? (fun k => 10 ^ k % q.den == 0) with
  | none => "null"
  | some k =>
    let n := q.num.natAbs * (10 ^ k / q.den)
    let s := toString n
    let sign := if q.num < 0 then "-" else ""
    if k = 0 then sign ++ s
    else
      let s2 :=
        if s.length ≤ k then
          String.mk (List.replicate (k + 1 - s.length) '0') ++ s
        else s
      sign ++ s2.take (s2.length - k) ++ "." ++ s2.drop (s2.length - k)

/-- JSON string rendering (claim inputs contain no escape-worthy
characters). -/
def renderJsonString (s : String) : String := "\"" ++ s ++ "\""

/-- `encoding/json` output for one `Payload` (struct field order:
`name`, `value`). -/
def renderPayload (p : Payload) : String :=
  "\x7b\"name\":" ++ renderJsonString p.name ++ ",\"value\":"
    ++ renderQ p.value ++ "\x7d"

/-- `json.Marshal(&df)` for a `Frame`: `{"data":[...]}` with the payloads in
slice order. -/
def marshalFrame (f : Frame) : String :=
  "\x7b\"data\":[" ++ String.intercalate "," (f.data.map renderPayload) ++ "]\x7d"

/-- Connection of the C7 example: control channel 0 plus channels A, B, C. -/
def exampleConn : DAQConnection :=
  ⟨["s", "ta", "tb", "tc"],
    [(0, ⟨"Scan", "s", "scan"⟩), (1, ⟨"A", "ta", "x"⟩),
      (2, ⟨"B", "tb", "y"⟩), (3, ⟨"C", "tc", "z"⟩)]⟩

/-- Device read oracle of the C7 example: A reads 1.5 as a `float32`, B reads
2.25 as a `float64`, C reads a non-numeric value. -/
def exampleRead : String → OpcValue := fun t =>
  if t = "ta" then .f32 (mkRat 3 2)
  else if t = "tb" then .f64 (mkRat 9 4)
  else .other "unreadable"

/-- C7: `ReadItems` yields one reading per mapped channel except index 0 in
ascending index order; the assembled frame keeps exactly the `float64`
(unchanged) and `float32` (widened) readings in that order, dropping all
others; and the example reading set A:1.5(float32), B:2.25(float64),
C:non-numeric serializes to exactly the claimed JSON. -/
theorem readItems_frame_serialization :
    (∀ (d : DAQConnection) (read : String → OpcValue),
      List.Pairwise (fun p q => p.1 < q.1) d.tagMap →
      readItems d read =
        (d.tagMap.filter (fun p => p.1 ≠ 0)).map
          (fun p => ⟨read p.2.tag, p.2.name, p.2.tagType⟩)) ∧
    (∀ (influx : Bool) (rs : List Reading),
      (processReadings influx rs).1 = rs.filterMap payloadOf) ∧
    marshalFrame ⟨(processReadings false (readItems exampleConn exampleRead)).1⟩ =
      "\x7b\"data\":[\x7b\"name\":\"A\",\"value\":1.5\x7d,\x7b\"name\":\"B\",\"value\":2.25\x7d]\x7d" := by
  refine ⟨readItems_sorted, ?_, by decide⟩
  intro influx rs
  rw [processReadings_eq]

/-- Witness for `readItems_frame_serialization` at the example connection,
whose tag map is strictly ascending. -/
theorem readItems_frame_serialization_witness :
    readItems exampleConn exampleRead =
      (exampleConn.tagMap.filter (fun p => p.1 ≠ 0)).map
        (fun p => ⟨exampleRead p.2.tag, p.2.name, p.2.tagType⟩) :=
  readItems_frame_serialization.1 exampleConn exampleRead (by decide)

/-- The sink-relevant fields of `cfg.Config` consulted by `StartRecord`. -/
structure Config where
  influx : Bool
  influxOrgName : String
  influxBucketName : String
deriving Repr, DecidableEq

/-- Oracle for the influx client calls made in `StartRecord`'s validation
block: errors of `FindOrganizationByName` and `FindBucketsByOrgName`, the
names of the buckets the org query returns, and the error of
`CreateBucketWithName`. -/
structure SinkEnv where
  findOrgErr : Option String
  findBucketsErr : Option String
  bucketNames : List String
  createBucketErr : Option String
deriving Repr, DecidableEq

/-- Result of a public operation: `.ok` stands for a `nil` error (and, for
`StartRecord`, the returned frame channel); `.err` carries the returned
error. -/
inductive Res where
  | ok
  | err (e : Err)
deriving Repr, DecidableEq

/-- Everything one `StartRecord` call returns or effects: its result (`.ok`
stands for the returned frame channel), whether it swapped the recording
flag to 1, whether the device's start-scan write was issued and succeeded,
and whether it spawned the background loop goroutine. -/
structure StartOutcome where
  result : Res
  wroteRecording : Bool
  scanningStarted : Bool
  loopSpawned : Bool
deriving Repr, DecidableEq

/-- The `if e.config.Influx { ... }` validation block of `StartRecord`:
blank org or bucket name, failed org resolution, failed bucket listing
(both reported as `ErrInvalidOrg`, as in the code), then lazy bucket
creation whose failure is returned verbatim. `none` means the block fell
through to the compare-and-swap. -/
def influxValidation (cfg : Config) (sink : SinkEnv) : Option Err :=
  if cfg.influx then
    if cfg.influxOrgName = "" ∨ cfg.influxBucketName = "" then
      some .blankInfluxOrgOrBucket
    else if sink.findOrgErr.isSome then some .invalidOrg
    else if sink.findBucketsErr.isSome then some .invalidOrg
    else if cfg.influxBucketName ∈ sink.bucketNames then none
    else
      match sink.createBucketErr with
      | some e => some (.sinkErr e)
      | none => none
  else none

/-- `StartRecord` from `main.go`, in the code's order: atomic load of the
recording flag, `StartScanning()` (`scanErr` is that device write's error),
the influx validation block, the compare-and-swap `CAS(&recording, 0, 1)`,
and only then `e.Add(1)` and the `go func` spawning the loop. The flag is
read twice — `recordingAtLoad` at the initial check and `recordingAtCas` at
the swap — so a concurrent writer between the two reads is representable;
in an interference-free call both reads coincide. -/
def startRecord (recordingAtLoad recordingAtCas : Bool) (cfg : Config)
    (scanErr : Option String) (sink : SinkEnv) : StartOutcome :=
  if recordingAtLoad then ⟨.err .alreadyRecording, false, false, false⟩
  else
    match scanErr with
    | some e => ⟨.err (.deviceErr e), false, false, false⟩
    | none =>
      match influxValidation cfg sink with
      | some e => ⟨.err e, false, true, false⟩
      | none =>
        if recordingAtCas then ⟨.err .alreadyRecording, false, true, false⟩
        else ⟨.ok, true, true, true⟩

/-- C2: `StartRecord` fails with `ErrAlreadyRecording` when the flag is
already set at the initial load, and when the compare-and-swap from Idle to
Recording loses; when `StartScanning` fails it returns that device error
with the flag untouched (state still Idle). In all three failure modes no
background loop is spawned. -/
theorem startRecord_failure_modes :
    (∀ (rc : Bool) (cfg : Config) (se : Option String) (sink : SinkEnv),
      startRecord true rc cfg se sink =
        ⟨.err .alreadyRecording, false, false, false⟩) ∧
    (∀ (cfg : Config) (sink : SinkEnv),
      influxValidation cfg sink = none →
      startRecord false true cfg none sink =
        ⟨.err .alreadyRecording, false, true, false⟩) ∧
    (∀ (rc : Bool) (cfg : Config) (e : String) (sink : SinkEnv),
      startRecord false rc cfg (some e) sink =
        ⟨.err (.deviceErr e), false, false, false⟩) := by
  refine ⟨fun rc cfg se sink => rfl, ?_, fun rc cfg e sink => rfl⟩
  intro cfg sink hv
  simp [startRecord, hv]

/-- Witness for `startRecord_failure_modes` with a sink-free configuration,
discharging the validation-passes hypothesis of the middle conjunct. -/
theorem startRecord_failure_modes_witness :
    startRecord true false ⟨false, "", ""⟩ none ⟨none, none, [], none⟩ =
      ⟨.err .alreadyRecording, false, false, false⟩ ∧
    startRecord false true ⟨false, "", ""⟩ none ⟨none, none, [], none⟩ =
      ⟨.err .alreadyRecording, false, true, false⟩ ∧
    startRecord false false ⟨false, "", ""⟩ (some "opc write failed")
        ⟨none, none, [], none⟩ =
      ⟨.err (.deviceErr "opc write failed"), false, false, false⟩ :=
  ⟨startRecord_failure_modes.1 false ⟨false, "", ""⟩ none ⟨none, none, [], none⟩,
   startRecord_failure_modes.2.1 ⟨false, "", ""⟩ ⟨none, none, [], none⟩ (by decide),
   startRecord_failure_modes.2.2 false ⟨false, "", ""⟩ "opc write failed"
     ⟨none, none, [], none⟩⟩

/-- C5 counterexample: with a sink configured and a blank organization name,
`StartRecord` does return the blank-org-or-bucket error, but scanning HAS
been started on the device — `StartScanning()` runs before the validation —
contradicting the claim that no scanning is started. -/
theorem startRecord_blank_org_counterexample :
    (startRecord false false ⟨true, "", "bucket"⟩ none
        ⟨none, none, [], none⟩).result = .err .blankInfluxOrgOrBucket ∧
    (startRecord false false ⟨true, "", "bucket"⟩ none
        ⟨none, none, [], none⟩).scanningStarted = true := by
  decide

/-- C5 amended: if a sink is configured and the organization or bucket name
is blank, `StartRecord` (whose start-scan device write succeeded) fails with
the blank-org-or-bucket configuration error, with scanning already started
on the device, the state still Idle, and no loop spawned. -/
theorem startRecord_blank_org_amended (rc : Bool) (cfg : Config)
    (sink : SinkEnv) (hi : cfg.influx = true)
    (hb : cfg.influxOrgName = "" ∨ cfg.influxBucketName = "") :
    startRecord false rc cfg none sink =
      ⟨.err .blankInfluxOrgOrBucket, false, true, false⟩ := by
  simp [startRecord, influxValidation, hi, hb]

/-- Witness for `startRecord_blank_org_amended` at a concrete blank-org
configuration. -/
theorem startRecord_blank_org_amended_witness :
    startRecord false false ⟨true, "", "bucket"⟩ none ⟨none, none, [], none⟩ =
      ⟨.err .blankInfluxOrgOrBucket, false, true, false⟩ :=
  startRecord_blank_org_amended false ⟨true, "", "bucket"⟩
    ⟨none, none, [], none⟩ (by decide) (Or.inl (by decide))

/-- One `StopRecord` call's result and effects: `.ok` means the call
returned `nil`; `stopSignals` counts sends on `quitChan`; `StopRecord`
contains no `go` statement, recorded as `loopSpawned`. -/
structure StopOutcome where
  result : Res
  recordingAfter : Bool
  stopSignals : Nat
  loopSpawned : Bool
deriving Repr, DecidableEq

/-- The order of actions inside a `StopRecord` call. -/
inductive StopEvent where
  | swapToIdle
  | sendStop
deriving Repr, DecidableEq

/-- `StopRecord` from `main.go`: `CAS(&recording, 1, 0)`; on failure return
`ErrAlreadyStoppedRecording`, on success send a single value on `quitChan`
and return `nil`. -/
def stopRecord (recording : Bool) : StopOutcome :=
  if recording then ⟨.ok, false, 1, false⟩
  else ⟨.err .alreadyStoppedRecording, false, 0, false⟩

/-- The action trace of `stopRecord`: on success the swap to Idle happens
before the single stop signal is sent. -/
def stopRecordTrace (recording : Bool) : List StopEvent :=
  if recording then [.swapToIdle, .sendStop] else []

/-- C3: `StopRecord` fails with `ErrAlreadyStoppedRecording` iff the state
is Idle at its compare-and-swap; otherwise it swaps Recording back to Idle
first and then sends exactly one stop signal; called before any
`StartRecord` (state Idle) it fails, sends nothing and creates no loop. -/
theorem stopRecord_cas :
    (∀ r : Bool,
      ((stopRecord r).result = .err .alreadyStoppedRecording ↔ r = false)) ∧
    stopRecord true = ⟨.ok, false, 1, false⟩ ∧
    stopRecordTrace true = [.swapToIdle, .sendStop] ∧
    stopRecord false = ⟨.err .alreadyStoppedRecording, false, 0, false⟩ ∧
    stopRecordTrace false = [] := by
  refine ⟨?_, rfl, rfl, rfl, rfl⟩
  intro r
  cases r <;> simp [stopRecord]

/-- Why the background loop's goroutine returned. -/
inductive TermReason where
  | stopSignal
  | marshalError
deriving Repr, DecidableEq

/-- One `select` outcome inside the loop: a ticker tick delivering the
current readings, or a value on `quitChan`. -/
inductive LoopEvent where
  | tick (readings : List Reading)
  | quit
deriving Repr, DecidableEq

/-- Observable effects of one run of the background loop goroutine of
`StartRecord`. `framesSent` holds the payload list of each frame delivered
on the output channel, in order; `frameChanClosed` is the deferred
`close(frameChan)`, which runs exactly when the goroutine returns. -/
structure LoopTrace where
  framesSent : List (List Payload)
  tickerStopped : Bool
  stopScanAttempted : Bool
  sinkFlushed : Bool
  sinkClosed : Bool
  frameChanClosed : Bool
  terminated : Option TermReason
deriving Repr, DecidableEq

/-- The background loop of `StartRecord` over a finite schedule of `select`
outcomes. On `quit`: stop the ticker, attempt `StopScanning` (its error is
only logged), flush and close the sink when influx is configured, return
(running the deferred channel close). On a tick: assemble the frame; if
`json.Marshal` fails (`marshalFails` oracles that), log and return — only
the deferred channel close runs; otherwise deliver the frame and continue.
An exhausted schedule means the goroutine is still running (nothing closed
yet). -/
def runLoop (influx : Bool) (marshalFails : List Payload → Bool) :
    List LoopEvent → LoopTrace
  | [] => ⟨[], false, false, false, false, false, none⟩
  | .quit :: _ => ⟨[], true, true, influx, influx, true, some .stopSignal⟩
  | .tick rs :: rest =>
    let data := (processReadings influx rs).1
    if marshalFails data then
      ⟨[], false, false, false, false, true, some .marshalError⟩
    else
      let t := runLoop influx marshalFails rest
      { t with framesSent := data :: t.framesSent }

/-- C4 counterexample: a loop terminated by a marshal failure (first tick, a
failing serializer) closes the frame channel but does NOT attempt
`StopScanning` and does NOT flush the sink even though one is configured —
refuting the claim that every termination attempts device stop and sink
flush. -/
theorem loop_marshal_no_teardown_counterexample :
    (runLoop true (fun _ => true) [.tick []]).terminated =
      some .marshalError ∧
    (runLoop true (fun _ => true) [.tick []]).stopScanAttempted = false ∧
    (runLoop true (fun _ => true) [.tick []]).sinkFlushed = false ∧
    (runLoop true (fun _ => true) [.tick []]).frameChanClosed = true := by
  decide

/-- C4 amended: when the loop terminates on a stop signal it stops the
ticker, attempts `StopScanning`, flushes and closes the sink when one is
configured, and closes the frame channel; when it terminates on a marshal
failure it only closes the frame channel — the ticker keeps running, no
`StopScanning` is attempted and the sink is neither flushed nor closed. -/
theorem loop_teardown (influx : Bool) (marshalFails : List Payload → Bool)
    (evs : List LoopEvent) :
    ((runLoop influx marshalFails evs).terminated = some .stopSignal →
      (runLoop influx marshalFails evs).tickerStopped = true ∧
      (runLoop influx marshalFails evs).stopScanAttempted = true ∧
      (runLoop influx marshalFails evs).sinkFlushed = influx ∧
      (runLoop influx marshalFails evs).sinkClosed = influx ∧
      (runLoop influx marshalFails evs).frameChanClosed = true) ∧
    ((runLoop influx marshalFails evs).terminated = some .marshalError →
      (runLoop influx marshalFails evs).frameChanClosed = true ∧
      (runLoop influx marshalFails evs).tickerStopped = false ∧
      (runLoop influx marshalFails evs).stopScanAttempted = false ∧
      (runLoop influx marshalFails evs).sinkFlushed = false ∧
      (runLoop influx marshalFails evs).sinkClosed = false) := by
  induction evs with
  | nil => simp [runLoop]
  | cons ev rest ih =>
    cases ev with
    | quit => simp [runLoop]
    | tick rs =>
      by_cases hm : marshalFails (processReadings influx rs).1 = true
      · simp [runLoop, hm]
      · have hm' : marshalFails (processReadings influx rs).1 = false := by
          simpa using hm
        simpa [runLoop, hm'] using ih

/-- Witness for `loop_teardown`: a sink-configured loop receiving a stop
signal on its first select performs the full teardown. -/
theorem loop_teardown_witness :
    (runLoop true (fun _ => false) [.quit]).tickerStopped = true ∧
    (runLoop true (fun _ => false) [.quit]).stopScanAttempted = true ∧
    (runLoop true (fun _ => false) [.quit]).sinkFlushed = true ∧
    (runLoop true (fun _ => false) [.quit]).sinkClosed = true ∧
    (runLoop true (fun _ => false) [.quit]).frameChanClosed = true :=
  (loop_teardown true (fun _ => false) [.quit]).1 (by decide)

/-- Program counter of one `StartRecord` caller in the two-caller
interference model (influx disabled, device start-scan write succeeding):
about to do the atomic load check, about to call `StartScanning`, about to
do the compare-and-swap, or returned — with the frame channel
(`retOk`) or with `ErrAlreadyRecording` (`retErrAlready`). -/
inductive ThreadPC where
  | atLoad
  | atScan
  | atCas
  | retOk
  | retErrAlready
deriving Repr, DecidableEq

/-- Shared state of the interference model: the atomic `recording` flag, the
number of background loop goroutines spawned so far, and the two callers'
program counters. -/
structure Conf where
  recording : Bool
  loops : Nat
  tA : ThreadPC
  tB : ThreadPC
deriving Repr, DecidableEq

/-- One atomic step of a single `StartRecord` caller, mirroring the code's
order: `atomic.LoadInt32` (early `ErrAlreadyRecording` return when set),
`StartScanning()` (assumed successful; touches no shared state),
`atomic.CompareAndSwapInt32(&recording, 0, 1)` — on success set the flag and
spawn the loop (`e.Add(1); go func...`), on failure return
`ErrAlreadyRecording`. Returns (new flag, new loop count, new pc). -/
def stepPC (recording : Bool) (loops : Nat) :
    ThreadPC → Bool × Nat × ThreadPC
  | .atLoad =>
    if recording then (recording, loops, .retErrAlready)
    else (recording, loops, .atScan)
  | .atScan => (recording, loops, .atCas)
  | .atCas =>
    if recording then (recording, loops, .retErrAlready)
    else (true, loops + 1, .retOk)
  | pc => (recording, loops, pc)

/-- Scheduler step: `true` steps caller A, `false` steps caller B. -/
def schedStep (c : Conf) (choice : Bool) : Conf :=
  if choice then
    let s := stepPC c.recording c.loops c.tA
    ⟨s.1, s.2.1, s.2.2, c.tB⟩
  else
    let s := stepPC c.recording c.loops c.tB
    ⟨s.1, s.2.1, c.tA, s.2.2⟩

/-- Run a whole interleaving (an arbitrary finite schedule). -/
def runSched (c : Conf) : List Bool → Conf
  | [] => c
  | ch :: s => runSched (schedStep c ch) s

/-- A caller has returned. -/
def isDone : ThreadPC → Bool
  | .retOk => true
  | .retErrAlready => true
  | _ => false

/-- Number of callers that returned successfully (each spawned one loop). -/
def okCount (c : Conf) : Nat :=
  (if c.tA = .retOk then 1 else 0) + (if c.tB = .retOk then 1 else 0)

/-- Reachability invariant of the interference model: the number of spawned
loops equals the number of successful returns, the flag is set exactly when
someone has won the swap, at most one caller ever wins, and a caller can
only have failed after the flag was set. -/
def Inv (c : Conf) : Prop :=
  c.loops = okCount c ∧
  (c.recording = true ↔ 1 ≤ okCount c) ∧
  okCount c ≤ 1 ∧
  (c.tA = .retErrAlready → c.recording = true) ∧
  (c.tB = .retErrAlready → c.recording = true)

/-- The invariant is preserved by every scheduler step. -/
theorem inv_schedStep (c : Conf) (ch : Bool) (h : Inv c) :
    Inv (schedStep c ch) := by
  obtain ⟨r, l, ta, tb⟩ := c
  obtain ⟨h1, h2, h3, h4, h5⟩ := h
  cases ch <;> cases r <;> cases ta <;> cases tb <;>
    simp_all [schedStep, stepPC, Inv, okCount]

/-- The invariant is preserved by every schedule. -/
theorem inv_runSched (s : List Bool) (c : Conf) (h : Inv c) :
    Inv (runSched c s) := by
  induction s generalizing c with
  | nil => exact h
  | cons ch rest ih => exact ih _ (inv_schedStep c ch h)

/-- The initial configuration of two concurrent `StartRecord` calls while no
session is running: flag clear, no loop, both about to do their load
check. -/
def initConf : Conf := ⟨false, 0, .atLoad, .atLoad⟩

/-- C1: under every interleaving of two concurrent `StartRecord` calls from
the idle state, at most one background loop exists at any time; and in every
interleaving in which both calls have returned, exactly one succeeded (the
caller that won the compare-and-swap, which spawned the single loop) and the
other failed with `ErrAlreadyRecording`. -/
theorem startRecord_concurrent_exclusive :
    (∀ s : List Bool, (runSched initConf s).loops ≤ 1) ∧
    (∀ s : List Bool,
      isDone (runSched initConf s).tA = true →
      isDone (runSched initConf s).tB = true →
      ((runSched initConf s).tA = .retOk ∧
          (runSched initConf s).tB = .retErrAlready ∨
        (runSched initConf s).tA = .retErrAlready ∧
          (runSched initConf s).tB = .retOk) ∧
      (runSched initConf s).loops = 1) := by
  have hinit : Inv initConf := by simp [Inv, initConf, okCount]
  constructor
  · intro s
    have h := inv_runSched s initConf hinit
    obtain ⟨h1, _, h3, _, _⟩ := h
    omega
  · intro s hA hB
    have h := inv_runSched s initConf hinit
    obtain ⟨h1, h2, h3, h4, h5⟩ := h
    have hcasesA : (runSched initConf s).tA = .retOk ∨
        (runSched initConf s).tA = .retErrAlready := by
      revert hA; cases (runSched initConf s).tA <;> simp [isDone]
    have hcasesB : (runSched initConf s).tB = .retOk ∨
        (runSched initConf s).tB = .retErrAlready := by
      revert hB; cases (runSched initConf s).tB <;> simp [isDone]
    rcases hcasesA with hA' | hA' <;> rcases hcasesB with hB' | hB'
    · exfalso; simp [okCount, hA', hB'] at h3
    · refine ⟨Or.inl ⟨hA', hB'⟩, ?_⟩
      rw [h1]; simp [okCount, hA', hB']
    · refine ⟨Or.inr ⟨hA', hB'⟩, ?_⟩
      rw [h1]; simp [okCount, hA', hB']
    · exfalso
      have hge : 1 ≤ okCount (runSched initConf s) := h2.mp (h4 hA')
      simp [okCount, hA', hB'] at hge

/-- Witness for `startRecord_concurrent_exclusive` at the schedule where A
runs to completion and then B observes the set flag at its load. -/
theorem startRecord_concurrent_exclusive_witness :
    (runSched initConf [true, true, true, false]).tA = .retOk ∧
      (runSched initConf [true, true, true, false]).tB = .retErrAlready ∨
    (runSched initConf [true, true, true, false]).tA = .retErrAlready ∧
      (runSched initConf [true, true, true, false]).tB = .retOk :=
  (startRecord_concurrent_exclusive.2 [true, true, true, false]
    (by decide) (by decide)).1

end Fluke
